import Mathlib

/-!
# Verification of the mini-poker strategy-dump parsers

Shallow embedding of `parse_strategy_p0.py` and `parse_strategy_p1.py`:
two scripts that read a Kuhn-poker strategy dump, index the per-information-set
probability vectors by (card, history|action-list), and compose them into
per-card compound path-probability tables.

Python strings are modelled as `List Char`; Python floats as `ℚ`
(the dump holds short decimal literals, which floats represent exactly at the
scale exercised here and which multiply the same way symbolically);
Python dicts as insertion-ordered association lists with in-place update;
exceptions as `Option` (`none` = the run aborts with an error).
-/

namespace MiniPoker

abbrev Chars := List Char

/-- Python `str.strip()`: drop whitespace from both ends. -/
def pyStrip (cs : Chars) : Chars :=
  ((cs.dropWhile Char.isWhitespace).reverse.dropWhile Char.isWhitespace).reverse

/-- Fuel-indexed worker for `pySplit`; the fuel (an upper bound on the
remaining length, consumed one unit per character) keeps the recursion
structural so that it evaluates inside the kernel. -/
def pySplitF (sep : Chars) : Nat → Chars → List Chars
  | _, [] => [[]]
  | 0, cs => [cs]
  | fuel + 1, c :: rest =>
    if sep ≠ [] ∧ sep.isPrefixOf (c :: rest) then
      [] :: pySplitF sep fuel ((c :: rest).drop sep.length)
    else
      match pySplitF sep fuel rest with
      | [] => [[c]]
      | seg :: segs => (c :: seg) :: segs

/-- Python `str.split(sep)` for a non-empty separator `sep`:
cut at each (leftmost, non-overlapping) occurrence of `sep`, keeping empty
segments. -/
def pySplit (sep : Chars) (cs : Chars) : List Chars :=
  pySplitF sep cs.length cs

/-- Python `str.split()` (no argument): whitespace-run tokenisation, the
accumulator holds the current token reversed. -/
def pySplitWSAux : Chars → Chars → List Chars
  | [], acc => if acc = [] then [] else [acc.reverse]
  | c :: rest, acc =>
    if c.isWhitespace then
      if acc = [] then pySplitWSAux rest []
      else acc.reverse :: pySplitWSAux rest []
    else pySplitWSAux rest (c :: acc)

/-- Python `str.split()` (no argument): split on whitespace runs, discarding
empty tokens. -/
def pySplitWS (cs : Chars) : List Chars := pySplitWSAux cs []

/-- Value of a digit run; `none` if any character is not a decimal digit. -/
def digitsVal? (cs : Chars) : Option Nat :=
  cs.foldlM (fun acc c => if c.isDigit then some (10 * acc + (c.toNat - 48)) else none) 0

/-- Models Python `float()` on the plain decimal literals that occur in
strategy dumps (optional sign, digits, optional fractional part); scientific
notation and the special values never occur there. `none` models the
`ValueError` that aborts the run. -/
def parseFloat (cs : Chars) : Option ℚ :=
  let signAndRest : Bool × Chars :=
    match cs with
    | '-' :: r => (true, r)
    | '+' :: r => (false, r)
    | _ => (false, cs)
  let neg := signAndRest.1
  match pySplit ['.'] signAndRest.2 with
  | [ip] =>
    if ip = [] then none
    else (digitsVal? ip).map (fun n => if neg then -(n : ℚ) else (n : ℚ))
  | [ip, fp] =>
    if ip = [] ∧ fp = [] then none
    else do
      let n ← digitsVal? ip
      let f ← digitsVal? fp
      let v : ℚ := (n : ℚ) + (f : ℚ) / ((10 : ℚ) ^ fp.length)
      pure (if neg then -v else v)
  | _ => none

/-- Python `str.index(sub)`: position of the first occurrence of `sub` in
`hay`, `none` modelling the `ValueError` when absent. -/
def findSub (hay sub : Chars) (i : Nat) : Option Nat :=
  if sub.isPrefixOf hay then some i
  else
    match hay with
    | [] => none
    | _ :: t => findSub t sub (i + 1)

abbrev Probs := List ℚ

/-- Dict lookup: value at the first (the unique) entry with the given key. -/
def dictGet? {α : Type} : List (Chars × α) → Chars → Option α
  | [], _ => none
  | e :: rest, k => if e.1 = k then some e.2 else dictGet? rest k

/-- Python `dict.get(k, default)`. -/
def dictGetD {α : Type} (d : List (Chars × α)) (k : Chars) (default : α) : α :=
  (dictGet? d k).getD default

/-- Python `d[k] = v` on an insertion-ordered dict: update in place when the
key exists, append otherwise. -/
def dictInsert {α : Type} (d : List (Chars × α)) (k : Chars) (v : α) :
    List (Chars × α) :=
  match d with
  | [] => [(k, v)]
  | (k', v') :: rest =>
    if k' = k then (k', v) :: rest else (k', v') :: dictInsert rest k v

/-- Inner per-card dict: `history|action-list` key ↦ probability vector. -/
abbrev CardData := List (Chars × Probs)

/-- Outer dict: card ↦ per-card strategy dict. -/
abbrev Strategies := List (Chars × CardData)

/-- `if card not in strategies: strategies[card] = {}` followed by
`strategies[card][key] = probs`. -/
def storeRecord (st : Strategies) (card key : Chars) (probs : Probs) :
    Strategies :=
  dictInsert st card (dictInsert (dictGetD st card []) key probs)

/-- Section scoping loop shared by both scripts: collect the stripped
non-empty lines strictly between the `tag` line (e.g. `PLAYER: 0`) and the
next `END` line. -/
def collectSection (tag : Chars) (lines : List Chars) : List Chars :=
  (lines.foldl
    (fun (acc : Bool × List Chars) line =>
      let s := pyStrip line
      if s = tag then (true, acc.2)
      else if s = "END".data then (false, acc.2)
      else if acc.1 ∧ s ≠ [] then (acc.1, acc.2 ++ [s])
      else acc)
    (false, [])).2

/-- Shared record-line parsing of both scripts:
`info, probs = line.split("\t")` (exactly one tab, else `ValueError`),
`probs = [float(p) for p in probs.split()]`,
card = text after `Card: ` up to the next comma,
history = text after `History: ` up to ` Actions:`, stripped,
actions = text after `Actions: ` up to `]`, split on `", "`.
Returns (card, history, actions, probs); `none` models any raised error. -/
def parseRecord (cs : Chars) : Option (Chars × Chars × List Chars × Probs) :=
  match pySplit "\t".data cs with
  | [info, probsStr] => do
    let probs ← (pySplitWS probsStr).mapM parseFloat
    let cardField ← (pySplit "Card: ".data info)[1]?
    let card := (pySplit ",".data cardField).headD []
    let histField ← (pySplit "History: ".data info)[1]?
    let history := pyStrip ((pySplit " Actions:".data histField).headD [])
    let actField ← (pySplit "Actions: ".data info)[1]?
    let actions := pySplit ", ".data ((pySplit "]".data actField).headD [])
    pure (card, history, actions, probs)
  | _ => none

/-- Fixed display order of ranks, `card_order = "AKQJT98765432"`. -/
def cardOrder : Chars := "AKQJT98765432".data

/-- Stable insertion of a keyed element into an already sorted list: the new
element goes before the first element whose key is not smaller, so elements
with equal keys keep their original relative order. -/
def insertPair (x : Chars × Nat) : List (Chars × Nat) → List (Chars × Nat)
  | [] => [x]
  | y :: ys => if y.2 < x.2 then y :: insertPair x ys else x :: y :: ys

/-- Stable ascending sort by the numeric key, realized as an insertion sort;
Python's `sorted` is exactly the stable ascending sort by the key function. -/
def sortPairs : List (Chars × Nat) → List (Chars × Nat)
  | [] => []
  | x :: rest => insertPair x (sortPairs rest)

/-- `sorted(strategies.keys(), key=lambda x: card_order.index(x))`:
a `card_order.index` failure (unknown rank) aborts the run; the sort is
stable on the key values, as Python's `sorted` is. -/
def sortCards (cards : List Chars) : Option (List Chars) := do
  let pairs ← cards.mapM (fun c => (findSub cardOrder c 0).map (fun i => (c, i)))
  pure ((sortPairs pairs).map (fun p => p.1))

/-- Output table: row labels, column labels (ranks), and the numeric rows. -/
structure DataFrame where
  index : List String
  columns : List String
  data : List (List ℚ)
deriving DecidableEq

namespace P0

/-- Key formation of `parse_strategy_p0.py`:
`f"{history}|{actions[0]},{actions[1]}"` when `len(actions) == 2`, else
`f"{history}|{actions[0]},{actions[1]},{actions[2]}"` (an `IndexError`
aborts the run when fewer than three actions reach the else branch). -/
def key (history : Chars) (actions : List Chars) : Option Chars :=
  match actions with
  | [a0, a1] => some (history ++ "|".data ++ a0 ++ ",".data ++ a1)
  | a0 :: a1 :: a2 :: _ =>
    some (history ++ "|".data ++ a0 ++ ",".data ++ a1 ++ ",".data ++ a2)
  | _ => none

/-- Per-line body of player 0's record loop: skip lines that do not start
with `[Player: 0`, otherwise parse the record and store it. -/
def processLine (st : Strategies) (cs : Chars) : Option Strategies :=
  if "[Player: 0".data.isPrefixOf cs then do
    let (card, history, actions, probs) ← parseRecord cs
    let k ← key history actions
    pure (storeRecord st card k probs)
  else pure st

/-- Player 0's strategy index: collect the `PLAYER: 0` section and fold the
record loop over it. -/
def buildIndex (lines : List String) : Option Strategies :=
  (collectSection "PLAYER: 0".data (lines.map String.data)).foldlM processLine []

/-- Player 0's per-card composition: root `{BET, CHECK}` lookups with their
two different defaults, second-level lookups, and the five compound products
in the source's row order. -/
def composeStrategies (cd : CardData) : Option (ℚ × ℚ × ℚ × ℚ × ℚ) := do
  let check_prob ← (dictGetD cd "|BET,CHECK".data [0, 1])[1]?
  let bet_prob ← (dictGetD cd "|BET,CHECK".data [1, 0])[0]?
  let check_actions := dictGetD cd "CHECK, BET|CALLBET,FOLD,RAISE".data [0, 0, 0]
  let bet_actions := dictGetD cd "BET, RAISE|CALLRAISE,FOLD".data [0, 0]
  let ca1 ← check_actions[1]?
  let ca0 ← check_actions[0]?
  let ca2 ← check_actions[2]?
  let ba1 ← bet_actions[1]?
  let ba0 ← bet_actions[0]?
  pure (check_prob * ca1, check_prob * ca0, check_prob * ca2,
        bet_prob * ba1, bet_prob * ba0)

/-- `parse_strategy_file` of `parse_strategy_p0.py`: index player 0's
section, sort the cards by rank, compose the five compound probabilities per
card, and assemble the row-major table. -/
def parse_strategy_file (lines : List String) : Option DataFrame := do
  let strategies ← buildIndex lines
  let cards ← sortCards (strategies.map (fun e => e.1))
  let vals ← cards.mapM (fun card => do
    let cd ← dictGet? strategies card
    composeStrategies cd)
  pure {
    index := ["CHECK+FOLD", "CHECK+CALLBET", "CHECK+RAISE", "BET+FOLD",
              "BET+CALLRAISE"],
    columns := cards.map String.mk,
    data := [vals.map (fun v => v.1),
             vals.map (fun v => v.2.1),
             vals.map (fun v => v.2.2.1),
             vals.map (fun v => v.2.2.2.1),
             vals.map (fun v => v.2.2.2.2)] }

end P0

namespace P1

/-- Key formation of `parse_strategy_p1.py`: `f"{history}|{','.join(actions)}"`. -/
def key (history : Chars) (actions : List Chars) : Chars :=
  history ++ "|".data ++ List.intercalate ",".data actions

/-- Per-line body of player 1's record loop. -/
def processLine (st : Strategies) (cs : Chars) : Option Strategies :=
  if "[Player: 1".data.isPrefixOf cs then do
    let (card, history, actions, probs) ← parseRecord cs
    pure (storeRecord st card (key history actions) probs)
  else pure st

/-- Player 1's strategy index. -/
def buildIndex (lines : List String) : Option Strategies :=
  (collectSection "PLAYER: 1".data (lines.map String.data)).foldlM processLine []

/-- The source's truthiness branch on the raise-response vector:
`if raise_response_probs:` take components `[0]` and `[1]`, else use `0`
and `1`. Returns the (callraise_prob, fold_to_raise_prob) pair. -/
def raiseResponse (raise_response_probs : Probs) : Option (ℚ × ℚ) :=
  if raise_response_probs.isEmpty then pure ((0 : ℚ), (1 : ℚ))
  else do
    let a ← raise_response_probs[0]?
    let b ← raise_response_probs[1]?
    pure (a, b)

/-- Player 1's checked-to composition: root `CHECK|BET,CHECK` lookup
(default `[0, 1]`), raise-response lookup (default `[0, 1]`, with the
source's truthiness test on the vector), and the three outputs
BET+CALLRAISE, BET+FOLD, CHECK. -/
def composeCheckedTo (cd : CardData) : Option (ℚ × ℚ × ℚ) := do
  let checked_to_probs := dictGetD cd "CHECK|BET,CHECK".data [0, 1]
  let bet_prob ← checked_to_probs[0]?
  let check_prob ← checked_to_probs[1]?
  let cf ← raiseResponse
    (dictGetD cd "CHECK, BET, RAISE|CALLRAISE,FOLD".data [0, 1])
  pure (bet_prob * cf.1, bet_prob * cf.2, check_prob)

/-- Player 1's bet-into values: the single `BET|CALLBET,FOLD,RAISE`
distribution (default `[0, 0, 0]`), taken componentwise. -/
def composeBetInto (cd : CardData) : Option (ℚ × ℚ × ℚ) := do
  let bet_into_probs := dictGetD cd "BET|CALLBET,FOLD,RAISE".data [0, 0, 0]
  let a ← bet_into_probs[0]?
  let b ← bet_into_probs[1]?
  let c ← bet_into_probs[2]?
  pure (a, b, c)

/-- `parse_strategy_file` of `parse_strategy_p1.py`: returns the
checked-to table and the bet-into table. -/
def parse_strategy_file (lines : List String) :
    Option (DataFrame × DataFrame) := do
  let strategies ← buildIndex lines
  let cards ← sortCards (strategies.map (fun e => e.1))
  let vals ← cards.mapM (fun card => do
    let cd ← dictGet? strategies card
    let ct ← composeCheckedTo cd
    let bi ← composeBetInto cd
    pure (ct, bi))
  pure ({ index := ["BET+CALLRAISE", "BET+FOLD", "CHECK"],
          columns := cards.map String.mk,
          data := [vals.map (fun v => v.1.1),
                   vals.map (fun v => v.1.2.1),
                   vals.map (fun v => v.1.2.2)] },
        { index := ["CALLBET", "FOLD", "RAISE"],
          columns := cards.map String.mk,
          data := [vals.map (fun v => v.2.1),
                   vals.map (fun v => v.2.2.1),
                   vals.map (fun v => v.2.2.2)] })

end P1

/-- Two-level lookup into a strategy index: card, then history-key. -/
def lookup2 (st : Strategies) (c k : Chars) : Option Probs :=
  (dictGet? st c).bind (fun cd => dictGet? cd k)

/-- Fold `storeRecord` over a list of (card, key, probs) records, as the
record loops of both scripts do for the records they extract. -/
def storeAll (st : Strategies) (rs : List (Chars × Chars × Probs)) :
    Strategies :=
  rs.foldl (fun s r => storeRecord s r.1 r.2.1 r.2.2) st

/-- The probability tokens of a record line: the whitespace-split of the
field after the single tab (empty when the line does not tab-split in two,
in which case the run aborts before reading any token). -/
def probTokens (l : Chars) : List Chars :=
  match pySplit "\t".data l with
  | [_, probsStr] => pySplitWS probsStr
  | _ => []

/-- Every probability token of every line of the given section parses to a
non-negative value (when it parses at all). -/
def NonnegTokens (tag : Chars) (lines : List String) : Prop :=
  ∀ l ∈ collectSection tag (lines.map String.data),
    ∀ t ∈ probTokens l, 0 ≤ (parseFloat t).getD 0

instance (tag : Chars) (lines : List String) : Decidable (NonnegTokens tag lines) :=
  inferInstanceAs (Decidable (∀ _ ∈ _, ∀ _ ∈ _, _))

/-- Rank `a` comes no later than rank `b` in the fixed display order
`A K Q J T 9 8 7 6 5 4 3 2`. -/
def rankLE (a b : String) : Prop :=
  ∃ i j, findSub cardOrder a.data 0 = some i ∧
    findSub cardOrder b.data 0 = some j ∧ i ≤ j

/-- All entries of a probability vector are non-negative. -/
def ProbsNN (v : Probs) : Prop := ∀ q ∈ v, 0 ≤ q

/-- All stored vectors of a per-card dict are non-negative. -/
def CardDataNN (cd : CardData) : Prop := ∀ e ∈ cd, ProbsNN e.2

/-- All stored vectors of a strategy index are non-negative. -/
def StrategiesNN (st : Strategies) : Prop := ∀ e ∈ st, CardDataNN e.2

/-- The spec's end-to-end scenario dump, with the three player-0 records
exactly as the spec writes them (the empty-history record reads
`History: , Actions: BET, CHECK`). -/
def specScenarioLines : List String :=
  ["PLAYER: 0",
   "[Player: 0 Card: A, History: , Actions: BET, CHECK]\t0.7 0.3",
   "[Player: 0 Card: A, History: CHECK, BET Actions: CALLBET, FOLD, RAISE]\t0.2 0.6 0.2",
   "[Player: 0 Card: A, History: BET, RAISE Actions: CALLRAISE, FOLD]\t0.9 0.1",
   "END"]

/-- The same scenario with the empty-history record's metadata written so
that the history field actually parses empty (`History:  Actions:`, no
comma), producing the key `|BET,CHECK` the composition code looks up. -/
def emptyHistScenarioLines : List String :=
  ["PLAYER: 0",
   "[Player: 0 Card: A, History:  Actions: BET, CHECK]\t0.7 0.3",
   "[Player: 0 Card: A, History: CHECK, BET Actions: CALLBET, FOLD, RAISE]\t0.2 0.6 0.2",
   "[Player: 0 Card: A, History: BET, RAISE Actions: CALLRAISE, FOLD]\t0.9 0.1",
   "END"]

/-- A dump whose only player-0 card has a root record but no second-level
records at all: both second-level lookups fall back to their defaults. -/
def rootOnlyLines : List String :=
  ["PLAYER: 0",
   "[Player: 0 Card: A, History:  Actions: BET, CHECK]\t0.7 0.3",
   "END"]

/-- A dump whose player-0 card A has the root record and the `BET, RAISE`
record but no `CHECK, BET` record. -/
def missingCheckBranchLines : List String :=
  ["PLAYER: 0",
   "[Player: 0 Card: A, History:  Actions: BET, CHECK]\t0.7 0.3",
   "[Player: 0 Card: A, History: BET, RAISE Actions: CALLRAISE, FOLD]\t0.9 0.1",
   "END"]

/-- A dump whose root record lists two actions but three probabilities. -/
def mismatchLines : List String :=
  ["PLAYER: 0",
   "[Player: 0 Card: A, History:  Actions: BET, CHECK]\t0.5 0.3 0.2",
   "[Player: 0 Card: A, History: CHECK, BET Actions: CALLBET, FOLD, RAISE]\t0.2 0.6 0.2",
   "END"]

/-- A dump with two record lines for the same (card, history, action-list)
key: the earlier root vector `0.1 0.9` is overwritten by `0.7 0.3`. -/
def dupKeyLines : List String :=
  ["PLAYER: 0",
   "[Player: 0 Card: A, History:  Actions: BET, CHECK]\t0.1 0.9",
   "[Player: 0 Card: A, History:  Actions: BET, CHECK]\t0.7 0.3",
   "END"]

/-- `dupKeyLines` with the earlier duplicate line removed. -/
def dedupKeyLines : List String :=
  ["PLAYER: 0",
   "[Player: 0 Card: A, History:  Actions: BET, CHECK]\t0.7 0.3",
   "END"]

/-- Record lines for both players in which the tab separator was replaced by
a space. -/
def noTabLines : List String :=
  ["PLAYER: 0",
   "[Player: 0 Card: A, History:  Actions: BET, CHECK] 0.7 0.3",
   "END",
   "PLAYER: 1",
   "[Player: 1 Card: A, History: BET Actions: CALLBET, FOLD, RAISE] 0.5 0.5 0.0",
   "END"]

/-- A well-formed two-card dump with sections for both players, cards listed
out of display order. -/
def twoCardLines : List String :=
  ["PLAYER: 0",
   "[Player: 0 Card: Q, History:  Actions: BET, CHECK]\t0.4 0.6",
   "[Player: 0 Card: A, History:  Actions: BET, CHECK]\t0.9 0.1",
   "END",
   "PLAYER: 1",
   "[Player: 1 Card: K, History: CHECK Actions: BET, CHECK]\t0.4 0.6",
   "[Player: 1 Card: A, History: BET Actions: CALLBET, FOLD, RAISE]\t1.0 0.0 0.0",
   "END"]

/-- A fully populated player-0 card dict (root plus both second levels). -/
def fullCd0 : CardData :=
  [("|BET,CHECK".data, [0.7, 0.3]),
   ("CHECK, BET|CALLBET,FOLD,RAISE".data, [0.2, 0.6, 0.2]),
   ("BET, RAISE|CALLRAISE,FOLD".data, [0.9, 0.1])]

/-- A player-0 card dict with both second-level records but no root record. -/
def noRootCd0 : CardData :=
  [("CHECK, BET|CALLBET,FOLD,RAISE".data, [0.2, 0.6, 0.2]),
   ("BET, RAISE|CALLRAISE,FOLD".data, [0.9, 0.1])]

/-- A player-1 card dict with the checked-to root and the raise response. -/
def checkedToCd1 : CardData :=
  [("CHECK|BET,CHECK".data, [0.4, 0.6]),
   ("CHECK, BET, RAISE|CALLRAISE,FOLD".data, [0.25, 0.75])]

/-- A player-0 record line with two actions but three probabilities. -/
def mismatchP0Line : Chars :=
  "[Player: 0 Card: A, History:  Actions: BET, CHECK]\t0.5 0.3 0.2".data

/-- A player-1 record line with three actions but two probabilities. -/
def mismatchP1Line : Chars :=
  "[Player: 1 Card: A, History: BET Actions: CALLBET, FOLD, RAISE]\t0.5 0.5".data

/-- The player-0 strategy index built from `twoCardLines`. -/
def twoCardIndex0 : Strategies :=
  [("Q".data, [("|BET,CHECK".data, [0.4, 0.6])]),
   ("A".data, [("|BET,CHECK".data, [0.9, 0.1])])]

/-- The player-0 table built from `twoCardLines`. -/
def twoCardDf0 : DataFrame :=
  ⟨["CHECK+FOLD", "CHECK+CALLBET", "CHECK+RAISE", "BET+FOLD",
    "BET+CALLRAISE"],
   ["A", "Q"],
   [[0, 0], [0, 0], [0, 0], [0, 0], [0, 0]]⟩

/-- The player-1 strategy index built from `twoCardLines`. -/
def twoCardIndex1 : Strategies :=
  [("K".data, [("CHECK|BET,CHECK".data, [0.4, 0.6])]),
   ("A".data, [("BET|CALLBET,FOLD,RAISE".data, [1, 0, 0])])]

/-- The player-1 checked-to table built from `twoCardLines`. -/
def twoCardDf1a : DataFrame :=
  ⟨["BET+CALLRAISE", "BET+FOLD", "CHECK"],
   ["A", "K"],
   [[0, 0], [0, 0.4], [1, 0.6]]⟩

/-- The player-1 bet-into table built from `twoCardLines`. -/
def twoCardDf1b : DataFrame :=
  ⟨["CALLBET", "FOLD", "RAISE"],
   ["A", "K"],
   [[1, 0], [0, 0], [0, 0]]⟩

/-! ### Lemmas about the string helpers -/

theorem pySplitF_no_sep {t : Char} (fuel : Nat) (cs : Chars) (h : t ∉ cs) :
    pySplitF [t] fuel cs = [cs] := by
  induction fuel generalizing cs with
  | zero => cases cs <;> rfl
  | succ n ih =>
    cases cs with
    | nil => rfl
    | cons c rest =>
      have hne : ¬ (t == c) = true := by
        simp only [beq_iff_eq]
        exact fun he => h (he ▸ List.mem_cons_self c rest)
      have hp : [t].isPrefixOf (c :: rest) = false := by
        simp [List.isPrefixOf, hne]
      have hrest : t ∉ rest := fun hm => h (List.mem_cons_of_mem c hm)
      simp [pySplitF, hp, ih rest hrest]

theorem pySplit_no_sep {t : Char} (cs : Chars) (h : t ∉ cs) :
    pySplit [t] cs = [cs] :=
  pySplitF_no_sep cs.length cs h

/-! ### Lemmas about the dict model -/

theorem dictGet?_insert_self {α : Type} (d : List (Chars × α)) (k : Chars)
    (v : α) : dictGet? (dictInsert d k v) k = some v := by
  induction d with
  | nil => simp [dictInsert, dictGet?]
  | cons e rest ih =>
    obtain ⟨k', v'⟩ := e
    by_cases hk : k' = k
    · subst hk
      simp [dictInsert, dictGet?]
    · simp [dictInsert, dictGet?, hk, ih]

theorem dictGet?_insert_ne {α : Type} (d : List (Chars × α)) (k k' : Chars)
    (v : α) (h : k' ≠ k) :
    dictGet? (dictInsert d k v) k' = dictGet? d k' := by
  induction d with
  | nil => simp [dictInsert, dictGet?, Ne.symm h]
  | cons e rest ih =>
    obtain ⟨k₀, v₀⟩ := e
    by_cases hk : k₀ = k
    · subst hk
      simp [dictInsert, dictGet?, Ne.symm h]
    · by_cases hk' : k₀ = k'
      · subst hk'
        simp [dictInsert, dictGet?, hk]
      · simp [dictInsert, dictGet?, hk, hk', ih]

theorem mem_dictInsert {α : Type} (d : List (Chars × α)) (k : Chars) (v : α)
    (e : Chars × α) (he : e ∈ dictInsert d k v) : e ∈ d ∨ e.2 = v := by
  induction d with
  | nil =>
    simp only [dictInsert, List.mem_singleton] at he
    exact Or.inr (by rw [he])
  | cons e₀ rest ih =>
    obtain ⟨k₀, v₀⟩ := e₀
    by_cases hk : k₀ = k
    · subst hk
      rw [dictInsert, if_pos rfl, List.mem_cons] at he
      rcases he with he | he
      · exact Or.inr (by rw [he])
      · exact Or.inl (List.mem_cons_of_mem _ he)
    · rw [dictInsert, if_neg hk, List.mem_cons] at he
      rcases he with he | he
      · exact Or.inl (by rw [he]; exact List.mem_cons_self _ _)
      · rcases ih he with h' | h'
        · exact Or.inl (List.mem_cons_of_mem _ h')
        · exact Or.inr h'

theorem dictGet?_eq_some_mem {α : Type} {d : List (Chars × α)} {k : Chars}
    {v : α} (h : dictGet? d k = some v) : ∃ e ∈ d, e.2 = v := by
  induction d with
  | nil => simp [dictGet?] at h
  | cons e rest ih =>
    rw [dictGet?] at h
    by_cases hk : e.1 = k
    · rw [if_pos hk] at h
      exact ⟨e, List.mem_cons_self _ _, by injection h⟩
    · rw [if_neg hk] at h
      obtain ⟨e', he', hv⟩ := ih h
      exact ⟨e', List.mem_cons_of_mem _ he', hv⟩

theorem lookup2_storeRecord (st : Strategies) (c₀ k₀ : Chars) (p : Probs)
    (c k : Chars) :
    lookup2 (storeRecord st c₀ k₀ p) c k =
      if c = c₀ ∧ k = k₀ then some p else lookup2 st c k := by
  by_cases hc : c = c₀
  · subst hc
    unfold lookup2 storeRecord
    rw [dictGet?_insert_self]
    by_cases hk : k = k₀
    · subst hk
      simp [dictGet?_insert_self]
    · rw [Option.some_bind, dictGet?_insert_ne _ _ _ _ hk,
        if_neg (by simp [hk])]
      unfold dictGetD
      cases hg : dictGet? st c with
      | none => simp [dictGet?]
      | some cd => simp

  · rw [if_neg (by simp [hc])]
    unfold lookup2 storeRecord
    rw [dictGet?_insert_ne _ _ _ _ hc]

/-! ### Lemmas about `Option`-valued folds and maps -/

theorem foldlM_eq_none {α σ : Type} (f : σ → α → Option σ) (ls : List α)
    (st : σ) (h : ∃ a ∈ ls, ∀ s, f s a = none) : ls.foldlM f st = none := by
  induction ls generalizing st with
  | nil => simp at h
  | cons a rest ih =>
    obtain ⟨b, hb, hnone⟩ := h
    rw [List.foldlM_cons]
    rcases List.mem_cons.mp hb with rfl | hmem
    · rw [hnone st]
      rfl
    · cases hf : f st a with
      | none => rfl
      | some s' => exact ih s' ⟨b, hmem, hnone⟩

theorem foldlM_induction {α σ : Type} (f : σ → α → Option σ) (P : σ → Prop)
    (Q : α → Prop)
    (step : ∀ s a s', Q a → P s → f s a = some s' → P s')
    (ls : List α) (st : σ) (hQ : ∀ a ∈ ls, Q a) (hP : P st) (st' : σ)
    (h : ls.foldlM f st = some st') : P st' := by
  induction ls generalizing st with
  | nil =>
    simp only [List.foldlM_nil, Option.pure_def, Option.some_inj] at h
    exact h ▸ hP
  | cons a rest ih =>
    rw [List.foldlM_cons] at h
    obtain ⟨s₁, hf, h⟩ := Option.bind_eq_some.mp h
    exact ih s₁ (fun b hb => hQ b (List.mem_cons_of_mem a hb))
      (step st a s₁ (hQ a (List.mem_cons_self a rest)) hP hf) h

theorem mapM_eq_some_mem {α β : Type} (f : α → Option β) (l : List α)
    (res : List β) (h : l.mapM f = some res) :
    ∀ b ∈ res, ∃ a ∈ l, f a = some b := by
  induction l generalizing res with
  | nil =>
    simp only [List.mapM_nil, Option.pure_def, Option.some_inj] at h
    subst h
    intro b hb
    simp at hb
  | cons a rest ih =>
    rw [List.mapM_cons] at h
    obtain ⟨b₀, hb₀, h⟩ := Option.bind_eq_some.mp h
    obtain ⟨bs, hbs, h⟩ := Option.bind_eq_some.mp h
    have hres : b₀ :: bs = res := Option.some_inj.mp h
    intro b hb
    rw [← hres] at hb
    rcases List.mem_cons.mp hb with rfl | hmem
    · exact ⟨a, List.mem_cons_self a rest, hb₀⟩
    · obtain ⟨a', ha', hfa'⟩ := ih bs hbs b hmem
      exact ⟨a', List.mem_cons_of_mem a ha', hfa'⟩

theorem mapM_findSub_fst (l : List Chars) (res : List (Chars × Nat))
    (h : l.mapM (fun c => (findSub cardOrder c 0).map (fun i => (c, i))) =
      some res) :
    res.map (fun p => p.1) = l := by
  induction l generalizing res with
  | nil =>
    simp only [List.mapM_nil, Option.pure_def, Option.some_inj] at h
    subst h
    rfl
  | cons a rest ih =>
    rw [List.mapM_cons] at h
    obtain ⟨b₀, hb₀, h⟩ := Option.bind_eq_some.mp h
    obtain ⟨bs, hbs, h⟩ := Option.bind_eq_some.mp h
    have hres : b₀ :: bs = res := Option.some_inj.mp h
    obtain ⟨i, _, hb₀'⟩ := Option.map_eq_some'.mp hb₀
    rw [← hres, List.map_cons, ← hb₀', ih bs hbs]

/-! ### Lemmas about the stable sort -/

theorem insertPair_perm (x : Chars × Nat) (l : List (Chars × Nat)) :
    (insertPair x l).Perm (x :: l) := by
  induction l with
  | nil => exact List.Perm.refl _
  | cons y ys ih =>
    rw [insertPair]
    by_cases h : y.2 < x.2
    · rw [if_pos h]
      exact (ih.cons y).trans (List.Perm.swap x y ys)
    · rw [if_neg h]

theorem sortPairs_perm (l : List (Chars × Nat)) : (sortPairs l).Perm l := by
  induction l with
  | nil => exact List.Perm.refl _
  | cons x rest ih =>
    exact (insertPair_perm x (sortPairs rest)).trans (ih.cons x)

theorem insertPair_sorted (x : Chars × Nat) (l : List (Chars × Nat))
    (h : l.Pairwise (fun a b => a.2 ≤ b.2)) :
    (insertPair x l).Pairwise (fun a b => a.2 ≤ b.2) := by
  induction l with
  | nil => simp [insertPair]
  | cons y ys ih =>
    rw [insertPair]
    by_cases hlt : y.2 < x.2
    · rw [if_pos hlt]
      rw [List.pairwise_cons] at h ⊢
      refine ⟨fun z hz => ?_, ih h.2⟩
      have hz' := (insertPair_perm x ys).mem_iff.mp hz
      rcases List.mem_cons.mp hz' with rfl | hmem
      · exact Nat.le_of_lt hlt
      · exact h.1 z hmem
    · rw [if_neg hlt]
      rw [List.pairwise_cons] at h
      rw [List.pairwise_cons]
      refine ⟨fun z hz => ?_, List.pairwise_cons.mpr h⟩
      rcases List.mem_cons.mp hz with rfl | hmem
      · exact Nat.le_of_not_lt hlt
      · exact Nat.le_trans (Nat.le_of_not_lt hlt) (h.1 z hmem)

theorem sortPairs_sorted (l : List (Chars × Nat)) :
    (sortPairs l).Pairwise (fun a b => a.2 ≤ b.2) := by
  induction l with
  | nil => simp [sortPairs]
  | cons x rest ih => exact insertPair_sorted x (sortPairs rest) ih

/-! ### Lemmas about record parsing and non-negativity -/

theorem parseRecord_parts {l card hist : Chars} {acts : List Chars}
    {probs : Probs} (h : parseRecord l = some (card, hist, acts, probs)) :
    ∃ info probsStr, pySplit "\t".data l = [info, probsStr] ∧
      (pySplitWS probsStr).mapM parseFloat = some probs := by
  unfold parseRecord at h
  cases hs : pySplit "\t".data l with
  | nil => rw [hs] at h; simp at h
  | cons info rest =>
    cases rest with
    | nil => rw [hs] at h; simp at h
    | cons probsStr rest2 =>
      cases rest2 with
      | cons _ _ => rw [hs] at h; simp at h
      | nil =>
        rw [hs] at h
        obtain ⟨pr, hpr, h⟩ := Option.bind_eq_some.mp h
        obtain ⟨cf, hcf, h⟩ := Option.bind_eq_some.mp h
        obtain ⟨hf, hhf, h⟩ := Option.bind_eq_some.mp h
        obtain ⟨af, haf, h⟩ := Option.bind_eq_some.mp h
        have ht := Option.some_inj.mp h
        have hq : pr = probs := congrArg (fun t => t.2.2.2) ht
        exact ⟨info, probsStr, rfl, hq ▸ hpr⟩

theorem probsNN_of_parseRecord {l card hist : Chars} {acts : List Chars}
    {probs : Probs} (h : parseRecord l = some (card, hist, acts, probs))
    (hTok : ∀ t ∈ probTokens l, 0 ≤ (parseFloat t).getD 0) :
    ProbsNN probs := by
  obtain ⟨info, probsStr, hsplit, hmap⟩ := parseRecord_parts h
  intro q hq
  obtain ⟨t, ht, hpt⟩ := mapM_eq_some_mem parseFloat _ _ hmap q hq
  have htok : probTokens l = pySplitWS probsStr := by
    unfold probTokens
    rw [hsplit]
  have h0 := hTok t (htok ▸ ht)
  rw [hpt] at h0
  simpa using h0

theorem storeRecord_NN {st : Strategies} {card key : Chars} {probs : Probs}
    (h : StrategiesNN st) (hp : ProbsNN probs) :
    StrategiesNN (storeRecord st card key probs) := by
  intro e he
  unfold storeRecord at he
  rcases mem_dictInsert _ _ _ _ he with he' | he2
  · exact h e he'
  · rw [he2]
    intro r hr
    rcases mem_dictInsert _ _ _ _ hr with hr' | hr2
    · unfold dictGetD at hr'
      cases hg : dictGet? st card with
      | none => rw [hg] at hr'; simp at hr'
      | some cd =>
        rw [hg] at hr'
        obtain ⟨e', he'', hcd⟩ := dictGet?_eq_some_mem hg
        exact (hcd ▸ h e' he'') r hr'
    · rw [hr2]
      exact hp

theorem dictGetD_NN {cd : CardData} (h : CardDataNN cd) (k : Chars)
    (dflt : Probs) (hd : ProbsNN dflt) : ProbsNN (dictGetD cd k dflt) := by
  unfold dictGetD
  cases hg : dictGet? cd k with
  | none => exact hd
  | some v =>
    obtain ⟨e, he, hv⟩ := dictGet?_eq_some_mem hg
    exact hv ▸ h e he

theorem processLine0_NN {st : Strategies} {l : Chars} {st' : Strategies}
    (h : P0.processLine st l = some st') (hNN : StrategiesNN st)
    (hTok : ∀ t ∈ probTokens l, 0 ≤ (parseFloat t).getD 0) :
    StrategiesNN st' := by
  unfold P0.processLine at h
  by_cases hpre : "[Player: 0".data.isPrefixOf l = true
  · rw [if_pos hpre] at h
    obtain ⟨tup, htup, h⟩ := Option.bind_eq_some.mp h
    obtain ⟨card, hist, acts, probs⟩ := tup
    obtain ⟨k, hk, h⟩ := Option.bind_eq_some.mp h
    have hst : storeRecord st card k probs = st' := Option.some_inj.mp h
    exact hst ▸ storeRecord_NN hNN (probsNN_of_parseRecord htup hTok)
  · rw [if_neg hpre] at h
    have hst : st = st' := Option.some_inj.mp h
    exact hst ▸ hNN

theorem processLine1_NN {st : Strategies} {l : Chars} {st' : Strategies}
    (h : P1.processLine st l = some st') (hNN : StrategiesNN st)
    (hTok : ∀ t ∈ probTokens l, 0 ≤ (parseFloat t).getD 0) :
    StrategiesNN st' := by
  unfold P1.processLine at h
  by_cases hpre : "[Player: 1".data.isPrefixOf l = true
  · rw [if_pos hpre] at h
    obtain ⟨tup, htup, h⟩ := Option.bind_eq_some.mp h
    obtain ⟨card, hist, acts, probs⟩ := tup
    have hst : storeRecord st card (P1.key hist acts) probs = st' :=
      Option.some_inj.mp h
    exact hst ▸ storeRecord_NN hNN (probsNN_of_parseRecord htup hTok)
  · rw [if_neg hpre] at h
    have hst : st = st' := Option.some_inj.mp h
    exact hst ▸ hNN

theorem buildIndex0_NN {lines : List String} {st : Strategies}
    (h : P0.buildIndex lines = some st)
    (hNN : NonnegTokens "PLAYER: 0".data lines) : StrategiesNN st :=
  foldlM_induction P0.processLine StrategiesNN
    (fun l => ∀ t ∈ probTokens l, 0 ≤ (parseFloat t).getD 0)
    (fun _ l _ hQ hP hf => processLine0_NN hf hP hQ)
    _ [] hNN (by intro e he; simp at he) st h

theorem buildIndex1_NN {lines : List String} {st : Strategies}
    (h : P1.buildIndex lines = some st)
    (hNN : NonnegTokens "PLAYER: 1".data lines) : StrategiesNN st :=
  foldlM_induction P1.processLine StrategiesNN
    (fun l => ∀ t ∈ probTokens l, 0 ≤ (parseFloat t).getD 0)
    (fun _ l _ hQ hP hf => processLine1_NN hf hP hQ)
    _ [] hNN (by intro e he; simp at he) st h

theorem composeStrategies_NN {cd : CardData} {t : ℚ × ℚ × ℚ × ℚ × ℚ}
    (h : CardDataNN cd) (hc : P0.composeStrategies cd = some t) :
    0 ≤ t.1 ∧ 0 ≤ t.2.1 ∧ 0 ≤ t.2.2.1 ∧ 0 ≤ t.2.2.2.1 ∧ 0 ≤ t.2.2.2.2 := by
  unfold P0.composeStrategies at hc
  obtain ⟨cp, hcp, hc⟩ := Option.bind_eq_some.mp hc
  obtain ⟨bp, hbp, hc⟩ := Option.bind_eq_some.mp hc
  obtain ⟨ca1, hca1, hc⟩ := Option.bind_eq_some.mp hc
  obtain ⟨ca0, hca0, hc⟩ := Option.bind_eq_some.mp hc
  obtain ⟨ca2, hca2, hc⟩ := Option.bind_eq_some.mp hc
  obtain ⟨ba1, hba1, hc⟩ := Option.bind_eq_some.mp hc
  obtain ⟨ba0, hba0, hc⟩ := Option.bind_eq_some.mp hc
  have ht := (Option.some_inj.mp hc).symm
  subst ht
  have h01 : ProbsNN [(0 : ℚ), 1] := by norm_num [ProbsNN]
  have h10 : ProbsNN [(1 : ℚ), 0] := by norm_num [ProbsNN]
  have h000 : ProbsNN [(0 : ℚ), 0, 0] := by norm_num [ProbsNN]
  have h00 : ProbsNN [(0 : ℚ), 0] := by norm_num [ProbsNN]
  have hcp0 : 0 ≤ cp := dictGetD_NN h _ [0, 1] h01 cp (List.getElem?_mem hcp)
  have hbp0 : 0 ≤ bp := dictGetD_NN h _ [1, 0] h10 bp (List.getElem?_mem hbp)
  have hca10 : 0 ≤ ca1 := dictGetD_NN h _ [0, 0, 0] h000 ca1 (List.getElem?_mem hca1)
  have hca00 : 0 ≤ ca0 := dictGetD_NN h _ [0, 0, 0] h000 ca0 (List.getElem?_mem hca0)
  have hca20 : 0 ≤ ca2 := dictGetD_NN h _ [0, 0, 0] h000 ca2 (List.getElem?_mem hca2)
  have hba10 : 0 ≤ ba1 := dictGetD_NN h _ [0, 0] h00 ba1 (List.getElem?_mem hba1)
  have hba00 : 0 ≤ ba0 := dictGetD_NN h _ [0, 0] h00 ba0 (List.getElem?_mem hba0)
  exact ⟨mul_nonneg hcp0 hca10, mul_nonneg hcp0 hca00, mul_nonneg hcp0 hca20,
    mul_nonneg hbp0 hba10, mul_nonneg hbp0 hba00⟩

theorem composeCheckedTo_NN {cd : CardData} {t : ℚ × ℚ × ℚ}
    (h : CardDataNN cd) (hc : P1.composeCheckedTo cd = some t) :
    0 ≤ t.1 ∧ 0 ≤ t.2.1 ∧ 0 ≤ t.2.2 := by
  unfold P1.composeCheckedTo at hc
  obtain ⟨bp, hbp, hc⟩ := Option.bind_eq_some.mp hc
  obtain ⟨cp, hcp, hc⟩ := Option.bind_eq_some.mp hc
  obtain ⟨cf, hcf, hc⟩ := Option.bind_eq_some.mp hc
  have ht := (Option.some_inj.mp hc).symm
  subst ht
  have h01 : ProbsNN [(0 : ℚ), 1] := by norm_num [ProbsNN]
  have hbp0 : 0 ≤ bp := dictGetD_NN h _ [0, 1] h01 bp (List.getElem?_mem hbp)
  have hcp0 : 0 ≤ cp := dictGetD_NN h _ [0, 1] h01 cp (List.getElem?_mem hcp)
  have hraise := dictGetD_NN h
    "CHECK, BET, RAISE|CALLRAISE,FOLD".data [(0 : ℚ), 1] h01
  have hcf0 : 0 ≤ cf.1 ∧ 0 ≤ cf.2 := by
    unfold P1.raiseResponse at hcf
    split at hcf
    · have := (Option.some_inj.mp hcf).symm
      subst this
      norm_num
    · obtain ⟨a, ha, hcf⟩ := Option.bind_eq_some.mp hcf
      obtain ⟨b, hb, hcf⟩ := Option.bind_eq_some.mp hcf
      have := (Option.some_inj.mp hcf).symm
      subst this
      exact ⟨hraise a (List.getElem?_mem ha), hraise b (List.getElem?_mem hb)⟩
  exact ⟨mul_nonneg hbp0 hcf0.1, mul_nonneg hbp0 hcf0.2, hcp0⟩

theorem composeBetInto_NN {cd : CardData} {t : ℚ × ℚ × ℚ}
    (h : CardDataNN cd) (hc : P1.composeBetInto cd = some t) :
    0 ≤ t.1 ∧ 0 ≤ t.2.1 ∧ 0 ≤ t.2.2 := by
  unfold P1.composeBetInto at hc
  obtain ⟨a, ha, hc⟩ := Option.bind_eq_some.mp hc
  obtain ⟨b, hb, hc⟩ := Option.bind_eq_some.mp hc
  obtain ⟨c, hcc, hc⟩ := Option.bind_eq_some.mp hc
  have ht := (Option.some_inj.mp hc).symm
  subst ht
  have h000 : ProbsNN [(0 : ℚ), 0, 0] := by norm_num [ProbsNN]
  have hNN := dictGetD_NN h "BET|CALLBET,FOLD,RAISE".data [(0 : ℚ), 0, 0] h000
  exact ⟨hNN a (List.getElem?_mem ha), hNN b (List.getElem?_mem hb),
    hNN c (List.getElem?_mem hcc)⟩

theorem sortCards_spec {keys cards : List Chars}
    (h : sortCards keys = some cards) :
    cards.Perm keys ∧ (cards.map String.mk).Pairwise rankLE := by
  unfold sortCards at h
  obtain ⟨pairs, hpairs, h⟩ := Option.bind_eq_some.mp h
  have hcards := (Option.some_inj.mp h).symm
  subst hcards
  constructor
  · have hperm := (sortPairs_perm pairs).map (fun p : Chars × Nat => p.1)
    rwa [mapM_findSub_fst _ _ hpairs] at hperm
  · have hsorted := sortPairs_sorted pairs
    have hmemf : ∀ p ∈ sortPairs pairs, findSub cardOrder p.1 0 = some p.2 := by
      intro p hp
      have hp' : p ∈ pairs := (sortPairs_perm pairs).mem_iff.mp hp
      obtain ⟨c, _, hfc⟩ := mapM_eq_some_mem _ _ _ hpairs p hp'
      obtain ⟨i, hfi, hpc⟩ := Option.map_eq_some'.mp hfc
      rw [← hpc]
      exact hfi
    rw [List.pairwise_map, List.pairwise_map]
    refine List.Pairwise.imp_of_mem ?_ hsorted
    intro a b ha hb hle
    exact ⟨a.2, b.2, hmemf a ha, hmemf b hb, hle⟩

/-! ### Claim theorems -/

section ConcreteEvaluation

attribute [local semireducible] Rat.mul Rat.ofScientific Rat.add Rat.inv
  Rat.sub

/-- Claim C1, counterexample: on the spec's end-to-end scenario written
exactly as given, the empty-history record's history field parses as `","`
(the comma after `History: ` survives), so it is stored under key
`,|BET,CHECK`, the root lookup of `|BET,CHECK` misses, both root defaults
yield factor 1, and the column comes out as 0.6, 0.2, 0.2, 0.1, 0.9 — not
the claimed 0.18, 0.06, 0.06, 0.07, 0.63. -/
theorem c1_literal_scenario_refuted :
    P0.buildIndex specScenarioLines =
      some [("A".data,
        [(",|BET,CHECK".data, [0.7, 0.3]),
         ("CHECK, BET|CALLBET,FOLD,RAISE".data, [0.2, 0.6, 0.2]),
         ("BET, RAISE|CALLRAISE,FOLD".data, [0.9, 0.1])])] ∧
    P0.parse_strategy_file specScenarioLines =
      some ⟨["CHECK+FOLD", "CHECK+CALLBET", "CHECK+RAISE", "BET+FOLD",
             "BET+CALLRAISE"],
            ["A"],
            [[0.6], [0.2], [0.2], [0.1], [0.9]]⟩ ∧
    (0.6 : ℚ) ≠ 0.18 := by
  refine ⟨by decide, by decide, by decide⟩

/-- Claim C1 (amended): when the empty-history record's metadata is written
so that the history field actually parses empty (`History:  Actions:` with
no comma, matching the key `|BET,CHECK` the composition looks up), the
player-0 table is exactly CHECK+FOLD = 0.18, CHECK+CALLBET = 0.06,
CHECK+RAISE = 0.06, BET+FOLD = 0.07, BET+CALLRAISE = 0.63. -/
theorem c1_empty_history_scenario :
    P0.parse_strategy_file emptyHistScenarioLines =
      some ⟨["CHECK+FOLD", "CHECK+CALLBET", "CHECK+RAISE", "BET+FOLD",
             "BET+CALLRAISE"],
            ["A"],
            [[0.18], [0.06], [0.06], [0.07], [0.63]]⟩ := by
  decide

/-- Claim C2, counterexample: player 0's card A has `P(BET) = 0.7` stored at
the root but no `BET, RAISE|CALLRAISE,FOLD` record; the missing fold/call
decision defaults to the all-zero vector `[0, 0]`, so BET+FOLD comes out 0 —
not the `0.7 × 1` an always-FOLD default would give. -/
theorem c2_fold_default_refuted :
    P0.buildIndex rootOnlyLines =
      some [("A".data, [("|BET,CHECK".data, [0.7, 0.3])])] ∧
    P0.parse_strategy_file rootOnlyLines =
      some ⟨["CHECK+FOLD", "CHECK+CALLBET", "CHECK+RAISE", "BET+FOLD",
             "BET+CALLRAISE"],
            ["A"],
            [[0], [0], [0], [0], [0]]⟩ ∧
    (0 : ℚ) ≠ 0.7 * 1 := by
  refine ⟨by decide, by decide, by decide⟩

/-- Claim C3, counterexample: card A stores `P(CHECK) = 0.3` at the root but
has no `CHECK, BET` record, so the CHECK-branch lookup falls back to
`[0, 0, 0]` and the three CHECK compound values sum to 0, not 0.3 (the
difference 0.3 is far beyond the 1e-6 tolerance). -/
theorem c3_check_branch_sum_refuted :
    P0.buildIndex missingCheckBranchLines =
      some [("A".data,
        [("|BET,CHECK".data, [0.7, 0.3]),
         ("BET, RAISE|CALLRAISE,FOLD".data, [0.9, 0.1])])] ∧
    P0.parse_strategy_file missingCheckBranchLines =
      some ⟨["CHECK+FOLD", "CHECK+CALLBET", "CHECK+RAISE", "BET+FOLD",
             "BET+CALLRAISE"],
            ["A"],
            [[0], [0], [0], [0.07], [0.63]]⟩ ∧
    (0 : ℚ) + 0 + 0 ≠ 0.3 ∧ (0.3 : ℚ) - (0 + 0 + 0) > 1 / 1000000 := by
  refine ⟨by decide, by decide, by decide, by decide⟩

/-- Claim C3 (amended): for a card whose root record stores `[p, q]` and
whose two second-level lookups yield full distributions (each summing to 1,
as the data model guarantees for records present in the dump), the composed
values satisfy CHECK+FOLD + CHECK+CALLBET + CHECK+RAISE = P(CHECK) and
BET+FOLD + BET+CALLRAISE = P(BET) exactly; when a second-level record is
missing, its branch instead sums to 0 (see the counterexample). -/
theorem c3_branch_sums (cd : CardData) (p q a b c d e : ℚ)
    (hroot : dictGet? cd "|BET,CHECK".data = some [p, q])
    (hc : dictGetD cd "CHECK, BET|CALLBET,FOLD,RAISE".data [0, 0, 0] =
      [a, b, c])
    (hb : dictGetD cd "BET, RAISE|CALLRAISE,FOLD".data [0, 0] = [d, e])
    (hcs : a + b + c = 1) (hbs : d + e = 1) :
    P0.composeStrategies cd = some (q * b, q * a, q * c, p * e, p * d) ∧
    q * b + q * a + q * c = q ∧ p * e + p * d = p := by
  have hgd1 : dictGetD cd "|BET,CHECK".data [0, 1] = [p, q] := by
    unfold dictGetD
    rw [hroot]
    rfl
  have hgd2 : dictGetD cd "|BET,CHECK".data [1, 0] = [p, q] := by
    unfold dictGetD
    rw [hroot]
    rfl
  refine ⟨?_, by linear_combination q * hcs, by linear_combination p * hbs⟩
  simp [P0.composeStrategies, hgd1, hgd2, hc, hb]

/-- Witness for `c3_branch_sums` at the fully populated card dict. -/
theorem c3_branch_sums_witness :
    (dictGet? fullCd0 "|BET,CHECK".data = some [0.7, 0.3] ∧
     dictGetD fullCd0 "CHECK, BET|CALLBET,FOLD,RAISE".data [0, 0, 0] =
       [0.2, 0.6, 0.2] ∧
     dictGetD fullCd0 "BET, RAISE|CALLRAISE,FOLD".data [0, 0] = [0.9, 0.1] ∧
     (0.2 : ℚ) + 0.6 + 0.2 = 1 ∧ (0.9 : ℚ) + 0.1 = 1) ∧
    (P0.composeStrategies fullCd0 =
       some (0.3 * 0.6, 0.3 * 0.2, 0.3 * 0.2, 0.7 * 0.1, 0.7 * 0.9) ∧
     (0.3 : ℚ) * 0.6 + 0.3 * 0.2 + 0.3 * 0.2 = 0.3 ∧
     (0.7 : ℚ) * 0.1 + 0.7 * 0.9 = 0.7) :=
  ⟨⟨by decide, by decide, by decide, by decide, by decide⟩,
   c3_branch_sums fullCd0 0.7 0.3 0.2 0.6 0.2 0.9 0.1 (by decide) (by decide)
     (by decide) (by decide) (by decide)⟩

/-- Claim C4, counterexample: a record with two actions and three
probabilities parses without any error; the mismatched vector is stored and
used (its components 0.3 and 0.5 become the CHECK and BET factors), and a
table is produced. -/
theorem c4_no_length_check_refuted :
    P0.buildIndex mismatchLines =
      some [("A".data,
        [("|BET,CHECK".data, [0.5, 0.3, 0.2]),
         ("CHECK, BET|CALLBET,FOLD,RAISE".data, [0.2, 0.6, 0.2])])] ∧
    P0.parse_strategy_file mismatchLines =
      some ⟨["CHECK+FOLD", "CHECK+CALLBET", "CHECK+RAISE", "BET+FOLD",
             "BET+CALLRAISE"],
            ["A"],
            [[0.18], [0.06], [0.06], [0], [0]]⟩ := by
  refine ⟨by decide, by decide⟩

/-- Claim C4 (amended): neither script compares the action count with the
probability count; a record whose counts differ is stored exactly like any
other record and processing continues without error. -/
theorem c4_mismatch_stored (st : Strategies) (l card hist : Chars)
    (acts : List Chars) (probs : Probs)
    (hrec : parseRecord l = some (card, hist, acts, probs))
    (hmis : acts.length ≠ probs.length) :
    ("[Player: 0".data.isPrefixOf l →
      ∀ k, P0.key hist acts = some k →
        P0.processLine st l = some (storeRecord st card k probs)) ∧
    ("[Player: 1".data.isPrefixOf l →
      P1.processLine st l = some (storeRecord st card (P1.key hist acts)
        probs)) := by
  constructor
  · intro hpre k hk
    unfold P0.processLine
    rw [if_pos hpre, hrec]
    show (P0.key hist acts).bind _ = _
    rw [hk]
    rfl
  · intro hpre
    unfold P1.processLine
    rw [if_pos hpre, hrec]
    rfl

/-- Witness for `c4_mismatch_stored`: a 2-action/3-probability player-0 line
and a 3-action/2-probability player-1 line are both stored silently. -/
theorem c4_mismatch_stored_witness :
    (parseRecord mismatchP0Line =
       some ("A".data, [], ["BET".data, "CHECK".data], [0.5, 0.3, 0.2]) ∧
     (2 : Nat) ≠ 3 ∧
     parseRecord mismatchP1Line =
       some ("A".data, "BET".data,
         ["CALLBET".data, "FOLD".data, "RAISE".data], [0.5, 0.5]) ∧
     (3 : Nat) ≠ 2) ∧
    P0.processLine [] mismatchP0Line =
      some (storeRecord [] "A".data "|BET,CHECK".data [0.5, 0.3, 0.2]) ∧
    P1.processLine [] mismatchP1Line =
      some (storeRecord [] "A".data
        (P1.key "BET".data ["CALLBET".data, "FOLD".data, "RAISE".data])
        [0.5, 0.5]) :=
  ⟨⟨by decide, by decide, by decide, by decide⟩,
   (c4_mismatch_stored [] mismatchP0Line "A".data []
       ["BET".data, "CHECK".data] [0.5, 0.3, 0.2] (by decide)
       (by decide)).1 (by decide) "|BET,CHECK".data (by decide),
   (c4_mismatch_stored [] mismatchP1Line "A".data "BET".data
       ["CALLBET".data, "FOLD".data, "RAISE".data] [0.5, 0.5] (by decide)
       (by decide)).2 (by decide)⟩

/-- Claim C5: a record line inside a player's section that carries the
player's tag but contains no tab character makes the whole run of that
player's script fail (`None`: the unpacking `ValueError` aborts), with no
table produced. -/
theorem c5_no_tab_aborts (lines : List String) :
    (∀ l ∈ collectSection "PLAYER: 0".data (lines.map String.data),
      "[Player: 0".data.isPrefixOf l → '\t' ∉ l →
        P0.parse_strategy_file lines = none) ∧
    (∀ l ∈ collectSection "PLAYER: 1".data (lines.map String.data),
      "[Player: 1".data.isPrefixOf l → '\t' ∉ l →
        P1.parse_strategy_file lines = none) := by
  have hrec : ∀ l : Chars, '\t' ∉ l → parseRecord l = none := by
    intro l hnt
    have hsplit : pySplit "\t".data l = [l] := pySplit_no_sep l hnt
    unfold parseRecord
    rw [hsplit]
  constructor
  · intro l hmem hpre hnt
    have hline : ∀ s, P0.processLine s l = none := by
      intro s
      unfold P0.processLine
      rw [if_pos hpre]
      show (parseRecord l).bind _ = none
      rw [hrec l hnt]
      rfl
    have hbuild : P0.buildIndex lines = none :=
      foldlM_eq_none _ _ _ ⟨l, hmem, hline⟩
    unfold P0.parse_strategy_file
    rw [hbuild]
    rfl
  · intro l hmem hpre hnt
    have hline : ∀ s, P1.processLine s l = none := by
      intro s
      unfold P1.processLine
      rw [if_pos hpre]
      show (parseRecord l).bind _ = none
      rw [hrec l hnt]
      rfl
    have hbuild : P1.buildIndex lines = none :=
      foldlM_eq_none _ _ _ ⟨l, hmem, hline⟩
    unfold P1.parse_strategy_file
    rw [hbuild]
    rfl

/-- Witness for `c5_no_tab_aborts`: the tab-less record lines of
`noTabLines` abort both scripts. -/
theorem c5_no_tab_aborts_witness :
    ("[Player: 0 Card: A, History:  Actions: BET, CHECK] 0.7 0.3".data ∈
       collectSection "PLAYER: 0".data (noTabLines.map String.data) ∧
     "[Player: 1 Card: A, History: BET Actions: CALLBET, FOLD, RAISE] 0.5 0.5 0.0".data ∈
       collectSection "PLAYER: 1".data (noTabLines.map String.data)) ∧
    P0.parse_strategy_file noTabLines = none ∧
    P1.parse_strategy_file noTabLines = none :=
  ⟨⟨by decide, by decide⟩,
   (c5_no_tab_aborts noTabLines).1
     "[Player: 0 Card: A, History:  Actions: BET, CHECK] 0.7 0.3".data
     (by decide) (by decide) (by decide),
   (c5_no_tab_aborts noTabLines).2
     "[Player: 1 Card: A, History: BET Actions: CALLBET, FOLD, RAISE] 0.5 0.5 0.0".data
     (by decide) (by decide) (by decide)⟩

/-- Claim C6: for the responder's checked-to table, with `[p, q]` the looked
up `CHECK|BET,CHECK` vector (`p` = P(BET), `q` = P(CHECK)) and `[r0, r1]`
the looked-up raise-response vector, the outputs are exactly
`(p·r0, p·r1, q)` — the CHECK value is `q` with no multiplication applied —
and when `r0 + r1 = 1` (true for the default `[0, 1]` and for any stored
distribution) BET+CALLRAISE + BET+FOLD = P(BET). -/
theorem c6_checked_to_composition (cd : CardData) (p q r0 r1 : ℚ)
    (hroot : dictGetD cd "CHECK|BET,CHECK".data [0, 1] = [p, q])
    (hraise : dictGetD cd "CHECK, BET, RAISE|CALLRAISE,FOLD".data [0, 1] =
      [r0, r1])
    (hsum : r0 + r1 = 1) :
    P1.composeCheckedTo cd = some (p * r0, p * r1, q) ∧
    p * r0 + p * r1 = p := by
  refine ⟨?_, by linear_combination p * hsum⟩
  unfold P1.composeCheckedTo
  rw [hroot, hraise]
  simp [P1.raiseResponse]

/-- Witness for `c6_checked_to_composition` at a concrete card dict. -/
theorem c6_checked_to_composition_witness :
    (dictGetD checkedToCd1 "CHECK|BET,CHECK".data [0, 1] = [0.4, 0.6] ∧
     dictGetD checkedToCd1 "CHECK, BET, RAISE|CALLRAISE,FOLD".data [0, 1] =
       [0.25, 0.75] ∧
     (0.25 : ℚ) + 0.75 = 1) ∧
    (P1.composeCheckedTo checkedToCd1 =
       some (0.4 * 0.25, 0.4 * 0.75, 0.6) ∧
     (0.4 : ℚ) * 0.25 + 0.4 * 0.75 = 0.4) :=
  ⟨⟨by decide, by decide, by decide⟩,
   c6_checked_to_composition checkedToCd1 0.4 0.6 0.25 0.75 (by decide)
     (by decide) (by decide)⟩

/-- Claim C9: when a player-0 card has no record at the empty history, the
CHECK factor (default `[0, 1]`, index 1) and the BET factor (default
`[1, 0]`, index 0) are both 1, so both branches get full weight and the five
compound values sum to 2 whenever the two second-level distributions each
sum to 1. -/
theorem c9_double_default (cd : CardData) (a b c d e : ℚ)
    (hroot : dictGet? cd "|BET,CHECK".data = none)
    (hc : dictGetD cd "CHECK, BET|CALLBET,FOLD,RAISE".data [0, 0, 0] =
      [a, b, c])
    (hb : dictGetD cd "BET, RAISE|CALLRAISE,FOLD".data [0, 0] = [d, e]) :
    P0.composeStrategies cd = some (1 * b, 1 * a, 1 * c, 1 * e, 1 * d) ∧
    (a + b + c = 1 → d + e = 1 →
      1 * b + 1 * a + 1 * c + 1 * e + 1 * d = 2) := by
  have hgd1 : dictGetD cd "|BET,CHECK".data [0, 1] = [0, 1] := by
    unfold dictGetD
    rw [hroot]
    rfl
  have hgd2 : dictGetD cd "|BET,CHECK".data [1, 0] = [1, 0] := by
    unfold dictGetD
    rw [hroot]
    rfl
  constructor
  · unfold P0.composeStrategies
    rw [hgd1, hgd2, hc, hb]
    simp
  · intro hcs hbs
    linear_combination hcs + hbs

/-- Witness for `c9_double_default` at a card dict with both second-level
records but no root record: the five values sum to exactly 2. -/
theorem c9_double_default_witness :
    (dictGet? noRootCd0 "|BET,CHECK".data = none ∧
     dictGetD noRootCd0 "CHECK, BET|CALLBET,FOLD,RAISE".data [0, 0, 0] =
       [0.2, 0.6, 0.2] ∧
     dictGetD noRootCd0 "BET, RAISE|CALLRAISE,FOLD".data [0, 0] =
       [0.9, 0.1] ∧
     (0.2 : ℚ) + 0.6 + 0.2 = 1 ∧ (0.9 : ℚ) + 0.1 = 1) ∧
    (P0.composeStrategies noRootCd0 =
       some (1 * 0.6, 1 * 0.2, 1 * 0.2, 1 * 0.1, 1 * 0.9) ∧
     (1 : ℚ) * 0.6 + 1 * 0.2 + 1 * 0.2 + 1 * 0.1 + 1 * 0.9 = 2) :=
  ⟨⟨by decide, by decide, by decide, by decide, by decide⟩,
   (c9_double_default noRootCd0 0.2 0.6 0.2 0.9 0.1 (by decide) (by decide)
      (by decide)).1,
   (c9_double_default noRootCd0 0.2 0.6 0.2 0.9 0.1 (by decide) (by decide)
      (by decide)).2 (by decide) (by decide)⟩

/-- Claim C2 (amended): a missing key never raises — every lookup uses its
call-site default. In the responder's script the missing checked-to decision
defaults to always-check (`[0, 1]`: P(BET) = 0, P(CHECK) = 1) and the
missing raise-response defaults to always-fold (`[0, 1]`); but the missing
second-level decisions of the first-to-act script and the responder's
missing bet-into decision default to all-zero vectors, so every affected
compound value is 0 — not the probability-1-on-FOLD the claim states. -/
theorem c2_defaults (cd0 cd1 : CardData)
    (h1 : dictGet? cd0 "CHECK, BET|CALLBET,FOLD,RAISE".data = none)
    (h2 : dictGet? cd0 "BET, RAISE|CALLRAISE,FOLD".data = none)
    (h3 : dictGet? cd1 "CHECK|BET,CHECK".data = none)
    (h4 : dictGet? cd1 "CHECK, BET, RAISE|CALLRAISE,FOLD".data = none)
    (h5 : dictGet? cd1 "BET|CALLBET,FOLD,RAISE".data = none) :
    dictGetD cd0 "CHECK, BET|CALLBET,FOLD,RAISE".data [0, 0, 0] =
      [0, 0, 0] ∧
    dictGetD cd0 "BET, RAISE|CALLRAISE,FOLD".data [0, 0] = [0, 0] ∧
    dictGetD cd1 "CHECK|BET,CHECK".data [0, 1] = [0, 1] ∧
    dictGetD cd1 "CHECK, BET, RAISE|CALLRAISE,FOLD".data [0, 1] = [0, 1] ∧
    dictGetD cd1 "BET|CALLBET,FOLD,RAISE".data [0, 0, 0] = [0, 0, 0] ∧
    P1.composeCheckedTo cd1 = some (0, 0, 1) ∧
    P1.composeBetInto cd1 = some (0, 0, 0) ∧
    (∀ t, P0.composeStrategies cd0 = some t →
      t = (t.1, t.2.1, t.2.2.1, t.2.2.2.1, t.2.2.2.2) ∧
      t.2.2.2.1 = 0 ∧ t.2.2.2.2 = 0 ∧ t.1 = 0 ∧ t.2.1 = 0 ∧ t.2.2.1 = 0) := by
  have g1 : dictGetD cd0 "CHECK, BET|CALLBET,FOLD,RAISE".data [0, 0, 0] =
      [0, 0, 0] := by
    unfold dictGetD
    rw [h1]
    rfl
  have g2 : dictGetD cd0 "BET, RAISE|CALLRAISE,FOLD".data [0, 0] = [0, 0] := by
    unfold dictGetD
    rw [h2]
    rfl
  have g3 : dictGetD cd1 "CHECK|BET,CHECK".data [0, 1] = [0, 1] := by
    unfold dictGetD
    rw [h3]
    rfl
  have g4 : dictGetD cd1 "CHECK, BET, RAISE|CALLRAISE,FOLD".data [0, 1] =
      [0, 1] := by
    unfold dictGetD
    rw [h4]
    rfl
  have g5 : dictGetD cd1 "BET|CALLBET,FOLD,RAISE".data [0, 0, 0] =
      [0, 0, 0] := by
    unfold dictGetD
    rw [h5]
    rfl
  refine ⟨g1, g2, g3, g4, g5, ?_, ?_, ?_⟩
  · unfold P1.composeCheckedTo
    rw [g3, g4]
    simp [P1.raiseResponse]
  · unfold P1.composeBetInto
    rw [g5]
    simp
  · intro t ht
    unfold P0.composeStrategies at ht
    rw [g1, g2] at ht
    obtain ⟨cp, hcp, ht⟩ := Option.bind_eq_some.mp ht
    obtain ⟨bp, hbp, ht⟩ := Option.bind_eq_some.mp ht
    obtain ⟨ca1, hca1, ht⟩ := Option.bind_eq_some.mp ht
    obtain ⟨ca0, hca0, ht⟩ := Option.bind_eq_some.mp ht
    obtain ⟨ca2, hca2, ht⟩ := Option.bind_eq_some.mp ht
    obtain ⟨ba1, hba1, ht⟩ := Option.bind_eq_some.mp ht
    obtain ⟨ba0, hba0, ht⟩ := Option.bind_eq_some.mp ht
    have ht' := (Option.some_inj.mp ht).symm
    subst ht'
    simp only [List.getElem?_cons_zero, List.getElem?_cons_succ,
      Option.some_inj] at hca1 hca0 hca2 hba1 hba0
    subst hca1
    subst hca0
    subst hca2
    subst hba1
    subst hba0
    simp

/-- Witness for `c2_defaults` at empty card dicts. -/
theorem c2_defaults_witness :
    (dictGet? ([] : CardData) "CHECK, BET|CALLBET,FOLD,RAISE".data = none ∧
     dictGet? ([] : CardData) "BET, RAISE|CALLRAISE,FOLD".data = none ∧
     dictGet? ([] : CardData) "CHECK|BET,CHECK".data = none ∧
     dictGet? ([] : CardData) "CHECK, BET, RAISE|CALLRAISE,FOLD".data =
       none ∧
     dictGet? ([] : CardData) "BET|CALLBET,FOLD,RAISE".data = none) ∧
    (P1.composeCheckedTo [] = some (0, 0, 1) ∧
     P1.composeBetInto [] = some (0, 0, 0)) :=
  ⟨⟨by decide, by decide, by decide, by decide, by decide⟩,
   ((c2_defaults [] [] (by decide) (by decide) (by decide) (by decide)
       (by decide)).2.2.2.2.2).1,
   ((c2_defaults [] [] (by decide) (by decide) (by decide) (by decide)
       (by decide)).2.2.2.2.2).2.1⟩

/-- Claim C7: each returned table has exactly the declared row labels in
their stable order, and its columns are exactly the ranks present in that
player's index, sorted by the fixed order A K Q J T 9 8 7 6 5 4 3 2 (the
responder's two tables share the same columns). -/
theorem c7_table_shape (lines : List String) :
    (∀ st df, P0.buildIndex lines = some st →
      P0.parse_strategy_file lines = some df →
      df.index = ["CHECK+FOLD", "CHECK+CALLBET", "CHECK+RAISE", "BET+FOLD",
        "BET+CALLRAISE"] ∧
      df.columns.Perm ((st.map (fun e => e.1)).map String.mk) ∧
      df.columns.Pairwise rankLE) ∧
    (∀ st dfs, P1.buildIndex lines = some st →
      P1.parse_strategy_file lines = some dfs →
      dfs.1.index = ["BET+CALLRAISE", "BET+FOLD", "CHECK"] ∧
      dfs.2.index = ["CALLBET", "FOLD", "RAISE"] ∧
      dfs.1.columns = dfs.2.columns ∧
      dfs.1.columns.Perm ((st.map (fun e => e.1)).map String.mk) ∧
      dfs.1.columns.Pairwise rankLE) := by
  constructor
  · intro st df hst hdf
    unfold P0.parse_strategy_file at hdf
    obtain ⟨st', hst', hdf⟩ := Option.bind_eq_some.mp hdf
    have heq : st' = st := by
      rw [hst] at hst'
      exact (Option.some_inj.mp hst').symm
    subst heq
    obtain ⟨cards, hcards, hdf⟩ := Option.bind_eq_some.mp hdf
    obtain ⟨vals, _, hdf⟩ := Option.bind_eq_some.mp hdf
    have hdf' := (Option.some_inj.mp hdf).symm
    subst hdf'
    obtain ⟨hperm, hsorted⟩ := sortCards_spec hcards
    exact ⟨rfl, hperm.map String.mk, hsorted⟩
  · intro st dfs hst hdfs
    unfold P1.parse_strategy_file at hdfs
    obtain ⟨st', hst', hdfs⟩ := Option.bind_eq_some.mp hdfs
    have heq : st' = st := by
      rw [hst] at hst'
      exact (Option.some_inj.mp hst').symm
    subst heq
    obtain ⟨cards, hcards, hdfs⟩ := Option.bind_eq_some.mp hdfs
    obtain ⟨vals, _, hdfs⟩ := Option.bind_eq_some.mp hdfs
    have hdfs' := (Option.some_inj.mp hdfs).symm
    subst hdfs'
    obtain ⟨hperm, hsorted⟩ := sortCards_spec hcards
    exact ⟨rfl, rfl, rfl, hperm.map String.mk, hsorted⟩

/-- Witness for `c7_table_shape` on the two-card dump: both scripts return
tables with the declared row labels and with columns the present ranks in
display order. -/
theorem c7_table_shape_witness :
    (P0.buildIndex twoCardLines = some twoCardIndex0 ∧
     P0.parse_strategy_file twoCardLines = some twoCardDf0 ∧
     P1.buildIndex twoCardLines = some twoCardIndex1 ∧
     P1.parse_strategy_file twoCardLines = some (twoCardDf1a, twoCardDf1b)) ∧
    (twoCardDf0.index = ["CHECK+FOLD", "CHECK+CALLBET", "CHECK+RAISE",
       "BET+FOLD", "BET+CALLRAISE"] ∧
     twoCardDf0.columns.Perm
       ((twoCardIndex0.map (fun e => e.1)).map String.mk) ∧
     twoCardDf0.columns.Pairwise rankLE) ∧
    (twoCardDf1a.index = ["BET+CALLRAISE", "BET+FOLD", "CHECK"] ∧
     twoCardDf1b.index = ["CALLBET", "FOLD", "RAISE"] ∧
     twoCardDf1a.columns = twoCardDf1b.columns ∧
     twoCardDf1a.columns.Perm
       ((twoCardIndex1.map (fun e => e.1)).map String.mk) ∧
     twoCardDf1a.columns.Pairwise rankLE) :=
  ⟨⟨by decide, by decide, by decide, by decide⟩,
   (c7_table_shape twoCardLines).1 twoCardIndex0 twoCardDf0 (by decide)
     (by decide),
   (c7_table_shape twoCardLines).2 twoCardIndex1 (twoCardDf1a, twoCardDf1b)
     (by decide) (by decide)⟩

/-- Claim C8: the index holds one vector per (card, history|action-list)
key — the vector of the LAST record with that key (general last-write-wins
statement over any record sequence), and on a concrete dump with a
duplicated key the earlier line has no effect: the built index and both the
index and table equal those of the dump with the earlier duplicate
removed. -/
theorem c8_last_write_wins :
    (∀ (st : Strategies) (rs : List (Chars × Chars × Probs)) (c k : Chars),
      lookup2 (storeAll st rs) c k =
        (rs.reverse.find? (fun r => decide (r.1 = c ∧ r.2.1 = k))).elim
          (lookup2 st c k) (fun r => some r.2.2)) ∧
    P0.buildIndex dupKeyLines =
      some [("A".data, [("|BET,CHECK".data, [0.7, 0.3])])] ∧
    P0.buildIndex dupKeyLines = P0.buildIndex dedupKeyLines ∧
    P0.parse_strategy_file dupKeyLines =
      P0.parse_strategy_file dedupKeyLines := by
  refine ⟨?_, by decide, by decide, by decide⟩
  intro st rs c k
  induction rs generalizing st with
  | nil => simp [storeAll]
  | cons r rest ih =>
    have hsa : storeAll st (r :: rest) =
        storeAll (storeRecord st r.1 r.2.1 r.2.2) rest := rfl
    rw [hsa, ih, List.reverse_cons, List.find?_append]
    cases hfind : rest.reverse.find?
        (fun r => decide (r.1 = c ∧ r.2.1 = k)) with
    | some r' => simp
    | none =>
      simp only [Option.none_or]
      rw [lookup2_storeRecord]
      by_cases hp : r.1 = c ∧ r.2.1 = k
      · rw [if_pos ⟨hp.1.symm, hp.2.symm⟩]
        simp [List.find?, hp]
      · rw [if_neg (fun hcon => hp ⟨hcon.1.symm, hcon.2.symm⟩)]
        simp [List.find?, hp]

/-- Claim C10: when every probability token of a player's section parses to
a non-negative value, every entry of every table that player's script
returns is non-negative. -/
theorem c10_nonneg (lines : List String)
    (h0 : NonnegTokens "PLAYER: 0".data lines)
    (h1 : NonnegTokens "PLAYER: 1".data lines) :
    (∀ df, P0.parse_strategy_file lines = some df →
      ∀ row ∈ df.data, ∀ x ∈ row, 0 ≤ x) ∧
    (∀ dfs, P1.parse_strategy_file lines = some dfs →
      (∀ row ∈ dfs.1.data, ∀ x ∈ row, 0 ≤ x) ∧
      (∀ row ∈ dfs.2.data, ∀ x ∈ row, 0 ≤ x)) := by
  constructor
  · intro df hdf
    unfold P0.parse_strategy_file at hdf
    obtain ⟨st, hst, hdf⟩ := Option.bind_eq_some.mp hdf
    obtain ⟨cards, _, hdf⟩ := Option.bind_eq_some.mp hdf
    obtain ⟨vals, hvals, hdf⟩ := Option.bind_eq_some.mp hdf
    have hdf' := (Option.some_inj.mp hdf).symm
    subst hdf'
    have hstNN := buildIndex0_NN hst h0
    have hv : ∀ v ∈ vals, 0 ≤ v.1 ∧ 0 ≤ v.2.1 ∧ 0 ≤ v.2.2.1 ∧
        0 ≤ v.2.2.2.1 ∧ 0 ≤ v.2.2.2.2 := by
      intro v hvmem
      obtain ⟨card, _, hcomp⟩ := mapM_eq_some_mem _ _ _ hvals v hvmem
      obtain ⟨cd, hcd, hcomp⟩ := Option.bind_eq_some.mp hcomp
      obtain ⟨e, he, hecd⟩ := dictGet?_eq_some_mem hcd
      exact composeStrategies_NN (hecd ▸ hstNN e he) hcomp
    intro row hrow x hx
    simp only [List.mem_cons, List.not_mem_nil, or_false] at hrow
    rcases hrow with rfl | rfl | rfl | rfl | rfl <;>
      · obtain ⟨v, hvm, rfl⟩ := List.mem_map.mp hx
        have := hv v hvm
        tauto
  · intro dfs hdfs
    unfold P1.parse_strategy_file at hdfs
    obtain ⟨st, hst, hdfs⟩ := Option.bind_eq_some.mp hdfs
    obtain ⟨cards, _, hdfs⟩ := Option.bind_eq_some.mp hdfs
    obtain ⟨vals, hvals, hdfs⟩ := Option.bind_eq_some.mp hdfs
    have hdfs' := (Option.some_inj.mp hdfs).symm
    subst hdfs'
    have hstNN := buildIndex1_NN hst h1
    have hv : ∀ v ∈ vals, (0 ≤ v.1.1 ∧ 0 ≤ v.1.2.1 ∧ 0 ≤ v.1.2.2) ∧
        (0 ≤ v.2.1 ∧ 0 ≤ v.2.2.1 ∧ 0 ≤ v.2.2.2) := by
      intro v hvmem
      obtain ⟨card, _, hcomp⟩ := mapM_eq_some_mem _ _ _ hvals v hvmem
      obtain ⟨cd, hcd, hcomp⟩ := Option.bind_eq_some.mp hcomp
      obtain ⟨ct, hct, hcomp⟩ := Option.bind_eq_some.mp hcomp
      obtain ⟨bi, hbi, hcomp⟩ := Option.bind_eq_some.mp hcomp
      have hvceq := (Option.some_inj.mp hcomp).symm
      subst hvceq
      obtain ⟨e, he, hecd⟩ := dictGet?_eq_some_mem hcd
      have hcdNN := hecd ▸ hstNN e he
      exact ⟨composeCheckedTo_NN hcdNN hct, composeBetInto_NN hcdNN hbi⟩
    constructor
    · intro row hrow x hx
      simp only [List.mem_cons, List.not_mem_nil, or_false] at hrow
      rcases hrow with rfl | rfl | rfl <;>
        · obtain ⟨v, hvm, rfl⟩ := List.mem_map.mp hx
          have := hv v hvm
          tauto
    · intro row hrow x hx
      simp only [List.mem_cons, List.not_mem_nil, or_false] at hrow
      rcases hrow with rfl | rfl | rfl <;>
        · obtain ⟨v, hvm, rfl⟩ := List.mem_map.mp hx
          have := hv v hvm
          tauto

/-- Witness for `c10_nonneg` on the two-card dump. -/
theorem c10_nonneg_witness :
    (NonnegTokens "PLAYER: 0".data twoCardLines ∧
     NonnegTokens "PLAYER: 1".data twoCardLines) ∧
    ((∀ df, P0.parse_strategy_file twoCardLines = some df →
       ∀ row ∈ df.data, ∀ x ∈ row, 0 ≤ x) ∧
     (∀ dfs, P1.parse_strategy_file twoCardLines = some dfs →
       (∀ row ∈ dfs.1.data, ∀ x ∈ row, 0 ≤ x) ∧
       (∀ row ∈ dfs.2.data, ∀ x ∈ row, 0 ≤ x))) :=
  ⟨⟨by decide, by decide⟩,
   c10_nonneg twoCardLines (by decide) (by decide)⟩

end ConcreteEvaluation

end MiniPoker
